import Mathlib

/-!
Verification development for the StockLens repository.

The development shallowly embeds the parts of the repository that the
checked properties talk about:

* the `signals_cache` table of `stocklens-engine/schema_v2_trading.sql`
  (its columns and the unique index `idx_signals_cache_symbol_tf` on
  `(symbol, timeframe)`),
* the price-refresh route
  `stocklens-web/src/app/api/update-prices/route.ts`
  (`fetchYahooQuote`, `fetchFinnhubQuote`, `GET`),
* the `SignalCard` component and the stock detail page
  `stocklens-web/src/app/stock/[symbol]/page.tsx`,
* and, where the repository ships only the database schema and the web
  callers of the Python engine (the engine itself is not in the source
  tree), definitions modelled from the specification text: the
  money-management deriver, the hybrid verdict scorer and the cache
  upsert operation.

JavaScript numbers are embedded as the inductive type `JVal`: finite
values are rationals, and NaN, Infinity, -Infinity, null and undefined
are explicit constructors, with the arithmetic used by the route
(coercion of null to 0 and of undefined to NaN, subtraction, division,
multiplication, and the `||` default operator) defined case by case.
-/

namespace StockLens

/-- A JavaScript value as it flows through the price-refresh route:
a finite number (a rational), `NaN`, `Infinity`, `-Infinity`, `null`
or `undefined`. -/
inductive JVal where
  | num : ℚ → JVal
  | nan : JVal
  | inf : JVal
  | ninf : JVal
  | null : JVal
  | undef : JVal
deriving DecidableEq, Repr

namespace JVal

/-- JavaScript truthiness on `JVal`: `0`, `NaN`, `null` and `undefined`
are falsy, every other value in the domain is truthy. -/
def falsy : JVal → Bool
  | num q => q == 0
  | nan => true
  | null => true
  | undef => true
  | _ => false

/-- The JavaScript `a || b` operator restricted to `JVal`. -/
def orElse (a b : JVal) : JVal := if a.falsy then b else a

/-- Numeric coercion (`ToNumber`): `null` becomes `0`, `undefined`
becomes `NaN`; numbers and infinities are unchanged. -/
def toNum : JVal → JVal
  | null => num 0
  | undef => nan
  | v => v

/-- JavaScript subtraction on the coerced values. -/
def sub (a b : JVal) : JVal :=
  match a.toNum, b.toNum with
  | num x, num y => num (x - y)
  | num _, inf => ninf
  | num _, ninf => inf
  | inf, num _ => inf
  | ninf, num _ => ninf
  | inf, ninf => inf
  | ninf, inf => ninf
  | _, _ => nan

/-- JavaScript division on the coerced values; division of a nonzero
finite number by zero gives a signed infinity, `0 / 0` gives `NaN`. -/
def div (a b : JVal) : JVal :=
  match a.toNum, b.toNum with
  | num x, num y =>
      if y = 0 then (if x = 0 then nan else if 0 < x then inf else ninf)
      else num (x / y)
  | num _, inf => num 0
  | num _, ninf => num 0
  | inf, num y => if 0 ≤ y then inf else ninf
  | ninf, num y => if 0 ≤ y then ninf else inf
  | _, _ => nan

/-- JavaScript multiplication on the coerced values. -/
def mul (a b : JVal) : JVal :=
  match a.toNum, b.toNum with
  | num x, num y => num (x * y)
  | num x, inf => if x = 0 then nan else if 0 < x then inf else ninf
  | num x, ninf => if x = 0 then nan else if 0 < x then ninf else inf
  | inf, num y => if y = 0 then nan else if 0 < y then inf else ninf
  | ninf, num y => if y = 0 then nan else if 0 < y then ninf else inf
  | inf, inf => inf
  | ninf, ninf => inf
  | inf, ninf => ninf
  | ninf, inf => ninf
  | _, _ => nan

end JVal

/-- The `verdict_type` enum of the schema. -/
inductive Verdict where
  | strongBuy | buy | hold | sell | strongSell
deriving DecidableEq, Repr

/-- A row of the `signals_cache` table of `schema_v2_trading.sql`
(metadata keys are strings, numeric columns hold the JavaScript value
written into them, timestamps are naturals). -/
structure SignalRow where
  id : String
  asset_id : String
  symbol : String
  timeframe : String
  current_price : JVal
  price_change_pct : JVal
  high_24h : JVal
  low_24h : JVal
  rsi_14 : JVal
  rsi_signal : Option String
  atr_14 : JVal
  sma_20 : JVal
  sma_50 : JVal
  entry_price : JVal
  stop_loss : JVal
  take_profit_1 : JVal
  take_profit_2 : JVal
  risk_reward_ratio : JVal
  signal_direction : Option String
  sentiment_score : JVal
  sentiment_label : Option String
  news_count : Int
  hybrid_score : JVal
  hybrid_verdict : Verdict
  confidence_level : JVal
  ai_summary : Option String
  ai_recommendation : Option String
  data_source : String
  last_updated_at : ℕ
  next_update_at : Option ℕ
  created_at : ℕ
deriving DecidableEq, Repr

/-! ## The cache store: key, uniqueness, upsert

The unique index `idx_signals_cache_symbol_tf` of `schema_v2_trading.sql`
is on `(symbol, timeframe)`; the legacy schema at the end of that file
has `idx_signals_cache_symbol_unique` on `symbol` alone. A table is a
list of rows; the index is the predicate that no two rows share the key. -/

/-- The key of the unique index `idx_signals_cache_symbol_tf`. -/
def rowKey (r : SignalRow) : String × String := (r.symbol, r.timeframe)

/-- The constraint enforced by `idx_signals_cache_symbol_tf`:
no two rows of the table share the `(symbol, timeframe)` key. -/
def UniqueSymbolTimeframe (tbl : List SignalRow) : Prop :=
  tbl.Pairwise (fun a b => rowKey a ≠ rowKey b)

/-- The constraint enforced by the legacy index
`idx_signals_cache_symbol_unique`: no two rows share the `symbol`. -/
def UniqueSymbol (tbl : List SignalRow) : Prop :=
  tbl.Pairwise (fun a b => a.symbol ≠ b.symbol)

/-- Number of live rows of the table holding the given
`(symbol, timeframe)` key. -/
def countKey (tbl : List SignalRow) (k : String × String) : ℕ :=
  (tbl.filter (fun r => rowKey r = k)).length

/-- Modelled from the spec: the cache store operation
`upsert(symbol, timeframe, SignalRecord)` of the Python engine, which is
not in the source tree; uniqueness is enforced on `(symbol, timeframe)`,
so a colliding row is replaced wholesale and a fresh key is inserted. -/
def upsert (r : SignalRow) (tbl : List SignalRow) : List SignalRow :=
  if tbl.any (fun x => rowKey x = rowKey r) then
    tbl.map (fun x => if rowKey x = rowKey r then r else x)
  else
    tbl ++ [r]

/-! ## The price-refresh route `app/api/update-prices/route.ts`

Fetch results are embedded as `Option` values: `None` stands for every
way the source returns `null` before building a quote (fetch rejection,
non-OK response, missing `chart.result[0]`, missing Finnhub data). The
fields read from the feed payloads are kept as `JVal`. -/

/-- The fields of `data.chart.result[0].meta` read by `fetchYahooQuote`. -/
structure YahooMeta where
  regularMarketPrice : JVal
  chartPreviousClose : JVal
  previousClose : JVal
deriving DecidableEq, Repr

/-- The fields of the Finnhub quote payload read by `fetchFinnhubQuote`. -/
structure FinnhubData where
  c : JVal
  d : JVal
  dp : JVal
deriving DecidableEq, Repr

/-- The `QuoteData` interface of the route. -/
structure QuoteData where
  symbol : String
  price : JVal
  change : JVal
  changePercent : JVal
  source : String
deriving DecidableEq, Repr

/-- The `YAHOO_SYMBOLS` map of the route: app symbol paired with the
Yahoo Finance symbol. -/
def YAHOO_SYMBOLS : List (String × String) :=
  [("XAUUSD", "GC=F"), ("EURUSD", "EURUSD=X"), ("GBPUSD", "GBPUSD=X")]

/-- The `FINNHUB_SYMBOLS` list of the route. -/
def FINNHUB_SYMBOLS : List String := ["AAPL", "TSLA", "NVDA"]

/-- `fetchYahooQuote(symbol, yahooSymbol)`: on a successful response it
computes `change = price - prevClose` and
`changePercent = (change / prevClose) * 100` with
`prevClose = meta.chartPreviousClose || meta.previousClose`, and returns
the quote unconditionally — there is no guard on the computed values. -/
def fetchYahooQuote (symbol : String) (resp : Option YahooMeta) : Option QuoteData :=
  match resp with
  | none => none
  | some meta =>
      let price := meta.regularMarketPrice
      let prevClose := JVal.orElse meta.chartPreviousClose meta.previousClose
      let change := JVal.sub price prevClose
      let changePercent := JVal.mul (JVal.div change prevClose) (JVal.num 100)
      some { symbol := symbol, price := price, change := change,
             changePercent := changePercent, source := "yahoo" }

/-- `fetchFinnhubQuote(symbol)`: returns `null` when the API key is
absent, the response failed, or `!data.c || data.c === 0`; otherwise the
quote with `change = data.d || 0` and `changePercent = data.dp || 0`. -/
def fetchFinnhubQuote (symbol : String) (apiKey : Bool)
    (resp : Option FinnhubData) : Option QuoteData :=
  if !apiKey then none
  else
    match resp with
    | none => none
    | some data =>
        if data.c.falsy || data.c == JVal.num 0 then none
        else
          some { symbol := symbol, price := data.c,
                 change := JVal.orElse data.d (JVal.num 0),
                 changePercent := JVal.orElse data.dp (JVal.num 0),
                 source := "finnhub" }

/-- The list `results` of the route: the Yahoo fetches of the three
`YAHOO_SYMBOLS` followed by the Finnhub fetches of the three
`FINNHUB_SYMBOLS` (the order of `Promise.all`). -/
def quoteResults (apiKey : Bool) (yResp : String → Option YahooMeta)
    (fResp : String → Option FinnhubData) : List (Option QuoteData) :=
  YAHOO_SYMBOLS.map (fun p => fetchYahooQuote p.1 (yResp p.2)) ++
    FINNHUB_SYMBOLS.map (fun s => fetchFinnhubQuote s apiKey (fResp s))

/-- The payload of the `supabase.from("signals_cache").update({...})`
call issued by `GET` for one quote: exactly the three columns
`current_price`, `price_change_pct` and `last_updated_at`. -/
structure UpdatePayload where
  current_price : JVal
  price_change_pct : JVal
  last_updated_at : ℕ
deriving DecidableEq, Repr

/-- The single write issued for one surviving quote: an update keyed by
`quote.symbol` whose payload holds the quote price, the percent change
and the time of the run. -/
def quoteOp (now : ℕ) (q : QuoteData) : String × UpdatePayload :=
  (q.symbol, { current_price := q.price,
               price_change_pct := q.changePercent,
               last_updated_at := now })

/-- The `GET` handler of the route, as the list of database writes it
issues: the failed fetches are dropped (`if (result) quotes.push`), and
each surviving quote yields one update keyed by `quote.symbol`. -/
def GET (apiKey : Bool) (yResp : String → Option YahooMeta)
    (fResp : String → Option FinnhubData) (now : ℕ) :
    List (String × UpdatePayload) :=
  ((quoteResults apiKey yResp fResp).filterMap id).map (quoteOp now)

/-- Application of one update payload to one row: the three columns of
the payload are set, every other column keeps its stored value. -/
def applyUpdate (row : SignalRow) (p : UpdatePayload) : SignalRow :=
  { row with current_price := p.current_price,
             price_change_pct := p.price_change_pct,
             last_updated_at := p.last_updated_at }

/-- The `.eq("symbol", quote.symbol)` filter: the update is applied to
every row of the table whose `symbol` matches (the timeframe is not part
of the filter). -/
def dbUpdateBySymbol (tbl : List SignalRow) (sym : String)
    (p : UpdatePayload) : List SignalRow :=
  tbl.map (fun r => if r.symbol = sym then applyUpdate r p else r)

/-- The cumulative effect of a list of issued writes on one row. -/
def rowAfter (row : SignalRow) (ops : List (String × UpdatePayload)) : SignalRow :=
  ops.foldl (fun r op => if r.symbol = op.1 then applyUpdate r op.2 else r) row

/-- Number of writes a list of issued updates lands on the given symbol. -/
def writesTo (ops : List (String × UpdatePayload)) (s : String) : ℕ :=
  (ops.filter (fun op => op.1 == s)).length

/-! ## The Money-Management Deriver

The deriver itself lives in the Python engine, which is not in the
source tree (only its database schema and its web consumers are); the
definitions below are modelled from the specification text of §4.3. -/

/-- Signal direction. -/
inductive Direction where
  | long | short | none
deriving DecidableEq, Repr

/-- The output of the Money-Management Deriver. -/
structure MoneyManagement where
  direction : Direction
  entryPrice : Option ℚ
  stopLoss : Option ℚ
  takeProfit1 : Option ℚ
  takeProfit2 : Option ℚ
  riskRewardRatio : Option ℚ
deriving DecidableEq, Repr

/-- The all-null no-signal output. -/
def noSignal : MoneyManagement :=
  { direction := Direction.none, entryPrice := none, stopLoss := none,
    takeProfit1 := none, takeProfit2 := none, riskRewardRatio := none }

/-- Rounding to 2 decimals. -/
def round2 (q : ℚ) : ℚ := (round (q * 100) : ℤ) / 100

/-- Modelled from the spec: the Money-Management Deriver of §4.3 (Python
engine, absent from the source tree). Given the current price, ATR14 and
the directional bias it returns entry, stop-loss, the two take-profits
and the risk-reward ratio; a null or non-positive ATR14 (no volatility
estimate) forces direction NONE with all levels null. -/
def deriveMoneyManagement (price : ℚ) (atr14 : Option ℚ)
    (bias : Direction) : MoneyManagement :=
  match atr14 with
  | Option.none => noSignal
  | some atr =>
      if atr ≤ 0 then noSignal
      else
        match bias with
        | Direction.none => noSignal
        | Direction.long =>
            let entry := price
            let sl := entry - 2 * atr
            let tp1 := entry + 3 / 2 * atr
            let tp2 := entry + 3 * atr
            { direction := Direction.long, entryPrice := some entry,
              stopLoss := some sl, takeProfit1 := some tp1,
              takeProfit2 := some tp2,
              riskRewardRatio := some (round2 (|tp2 - entry| / |entry - sl|)) }
        | Direction.short =>
            let entry := price
            let sl := entry + 2 * atr
            let tp1 := entry - 3 / 2 * atr
            let tp2 := entry - 3 * atr
            { direction := Direction.short, entryPrice := some entry,
              stopLoss := some sl, takeProfit1 := some tp1,
              takeProfit2 := some tp2,
              riskRewardRatio := some (round2 (|tp2 - entry| / |entry - sl|)) }

/-! ## The Hybrid Verdict Scorer

Also part of the Python engine and absent from the source tree; modelled
from the specification text of §4.4. -/

/-- MACD trend label. -/
inductive MacdTrend where
  | bullish | bearish | neutral
deriving DecidableEq, Repr

/-- RSI zone label. -/
inductive RsiZone where
  | oversold | neutral | overbought
deriving DecidableEq, Repr

/-- Sentiment label. -/
inductive SentimentLabel where
  | positive | neutral | negative
deriving DecidableEq, Repr

/-- Modelled from the spec: the immutable `IndicatorSnapshot` of §3; all
numeric fields nullable until warm-up is satisfied. -/
structure IndicatorSnapshot where
  rsi14 : Option ℚ
  smaSignal : RsiZone
  sma20 : Option ℚ
  sma50 : Option ℚ
  atr14 : Option ℚ
  macdLine : Option ℚ
  macdSignalLine : Option ℚ
  macdHistogram : Option ℚ
  macdTrend : MacdTrend
deriving DecidableEq, Repr

/-- Modelled from the spec: the `SentimentSnapshot` of §3. -/
structure SentimentSnapshot where
  score : ℚ
  label : SentimentLabel
  newsCount : ℕ
deriving DecidableEq, Repr

/-- The output of the Hybrid Verdict Scorer. -/
structure ScorerOutput where
  hybridScore : ℚ
  verdict : Verdict
  confidenceLevel : ℚ
deriving DecidableEq, Repr

/-- Clamp a score into `[0, 100]`. -/
def clampScore (q : ℚ) : ℚ := max 0 (min 100 q)

/-- Modelled from the spec: the technical sub-score of §4.4, a function
of the RSI distance from 50, the MACD trend sign, and the SMA20 versus
SMA50 relationship, clamped into `[0, 100]`. -/
def technicalScore (ind : IndicatorSnapshot) : ℚ :=
  let rsiComp : ℚ :=
    match ind.rsi14 with
    | Option.none => 0
    | some r => (50 - r) / 2
  let macdComp : ℚ :=
    match ind.macdTrend with
    | MacdTrend.bullish => 10
    | MacdTrend.bearish => -10
    | MacdTrend.neutral => 0
  let smaComp : ℚ :=
    match ind.sma20, ind.sma50 with
    | some a, some b => if b < a then 10 else if a < b then -10 else 0
    | _, _ => 0
  clampScore (50 + rsiComp + macdComp + smaComp)

/-- Modelled from the spec: the sentiment sub-score of §4.4, the linear
remap of the sentiment score from `[-1, 1]` to `[0, 100]`. -/
def sentimentSubScore (sent : SentimentSnapshot) : ℚ :=
  (sent.score + 1) * 50

/-- Modelled from the spec: the weighted hybrid score, technical weight
0.6 and sentiment weight 0.4. -/
def hybridScoreOf (ind : IndicatorSnapshot) (sent : SentimentSnapshot) : ℚ :=
  (3 * technicalScore ind + 2 * sentimentSubScore sent) / 5

/-- Modelled from the spec: the verdict thresholds of §4.4. -/
def verdictOf (s : ℚ) : Verdict :=
  if 80 ≤ s then Verdict.strongBuy
  else if 60 ≤ s then Verdict.buy
  else if 40 ≤ s then Verdict.hold
  else if 20 ≤ s then Verdict.sell
  else Verdict.strongSell

/-- Modelled from the spec: `confidenceLevel = min(100, |score - 50| * 2)`. -/
def confidenceOf (s : ℚ) : ℚ := min 100 (|s - 50| * 2)

/-- Modelled from the spec: the Hybrid Verdict Scorer of §4.4. It takes
the two snapshots and nothing else — it has no internal state. -/
def hybridScorer (ind : IndicatorSnapshot) (sent : SentimentSnapshot) :
    ScorerOutput :=
  { hybridScore := hybridScoreOf ind sent,
    verdict := verdictOf (hybridScoreOf ind sent),
    confidenceLevel := confidenceOf (hybridScoreOf ind sent) }

/-! ## `SignalCard` and the stock detail page

`SignalCard` (under `src/components`, concatenated into
`lib/supabase/server.ts` in the source snapshot) renders one of three
views; the stock detail page `app/stock/[symbol]/page.tsx` invokes it
with `isPremium={true}`. -/

/-- The props of the `SignalCard` component. -/
structure SignalCardProps where
  direction : Option String
  entryPrice : Option ℚ
  stopLoss : Option ℚ
  takeProfit1 : Option ℚ
  takeProfit2 : Option ℚ
  riskRewardRatio : Option ℚ
  atr : Option ℚ
  isPremium : Bool
deriving DecidableEq, Repr

/-- The three renderings of `SignalCard`: the dashed no-signal card; the
premium card showing entry together with stop-loss and both take-profit
levels; and the locked card that shows only the entry price with the
stop-loss and take-profits hidden behind the upgrade overlay. -/
inductive SignalCardView where
  | noActiveSignal
  | premiumLevels (direction : Option String) (entryPrice stopLoss tp1 tp2 : Option ℚ)
  | premiumLocked (direction : Option String) (entryPrice : Option ℚ)
deriving DecidableEq, Repr

/-- Whether a rendered view is the premium-locked card. -/
def SignalCardView.isLocked : SignalCardView → Bool
  | premiumLocked _ _ => true
  | _ => false

/-- The `SignalCard` component: no signal unless the direction is LONG
or SHORT; then the premium branch when `isPremium`, else the locked
branch. -/
def SignalCard (p : SignalCardProps) : SignalCardView :=
  let isLong := p.direction == some "LONG"
  let isShort := p.direction == some "SHORT"
  let hasSignal := isLong || isShort
  if !hasSignal then SignalCardView.noActiveSignal
  else if p.isPremium then
    SignalCardView.premiumLevels p.direction p.entryPrice p.stopLoss
      p.takeProfit1 p.takeProfit2
  else
    SignalCardView.premiumLocked p.direction p.entryPrice

/-- The fields of the `SignalDetail` record of the stock detail page
that are handed to `SignalCard`. -/
structure SignalDetail where
  symbol : String
  signal_direction : Option String
  entry_price : Option ℚ
  stop_loss : Option ℚ
  take_profit_1 : Option ℚ
  take_profit_2 : Option ℚ
  risk_reward_ratio : Option ℚ
  atr_14 : Option ℚ
deriving DecidableEq, Repr

/-- The `SignalCard` invocation of `StockDetailPage`
(`app/stock/[symbol]/page.tsx`): every prop comes from the fetched
signal and `isPremium` is the literal `true` for every visitor. -/
def stockDetailSignalCard (signal : SignalDetail) : SignalCardView :=
  SignalCard
    { direction := signal.signal_direction,
      entryPrice := signal.entry_price,
      stopLoss := signal.stop_loss,
      takeProfit1 := signal.take_profit_1,
      takeProfit2 := signal.take_profit_2,
      riskRewardRatio := signal.risk_reward_ratio,
      atr := signal.atr_14,
      isPremium := true }

/-! ## Sample data used by the concrete witnesses -/

/-- A concrete stored row used by the witnesses: the record an earlier
full pipeline run left for `(XAUUSD, H1)`. -/
def sampleRow : SignalRow :=
  { id := "row-1", asset_id := "asset-1", symbol := "XAUUSD", timeframe := "H1",
    current_price := JVal.num 100, price_change_pct := JVal.num 0,
    high_24h := JVal.num 101, low_24h := JVal.num 99,
    rsi_14 := JVal.num 28, rsi_signal := some "oversold",
    atr_14 := JVal.num 2, sma_20 := JVal.num 99, sma_50 := JVal.num 98,
    entry_price := JVal.num 100, stop_loss := JVal.num 96,
    take_profit_1 := JVal.num 103, take_profit_2 := JVal.num 106,
    risk_reward_ratio := JVal.num (3 / 2), signal_direction := some "LONG",
    sentiment_score := JVal.num 0, sentiment_label := some "NEUTRAL",
    news_count := 0, hybrid_score := JVal.num 62, hybrid_verdict := Verdict.buy,
    confidence_level := JVal.num 24, ai_summary := Option.none,
    ai_recommendation := Option.none, data_source := "alphavantage",
    last_updated_at := 0, next_update_at := Option.none, created_at := 0 }

/-- A Yahoo feed response where only `GC=F` answers, with a regular
price of 105 against a previous close of 100. -/
def yRespSample : String → Option YahooMeta := fun c =>
  if c = "GC=F" then
    some { regularMarketPrice := JVal.num 105,
           chartPreviousClose := JVal.num 100, previousClose := JVal.num 100 }
  else Option.none

/-- A Yahoo feed response where only `GC=F` answers and reports a zero
previous close (`chartPreviousClose` missing, `previousClose` zero). -/
def yRespZeroPrev : String → Option YahooMeta := fun c =>
  if c = "GC=F" then
    some { regularMarketPrice := JVal.num 100,
           chartPreviousClose := JVal.undef, previousClose := JVal.num 0 }
  else Option.none

/-- A Finnhub feed that never answers. -/
def fRespNone : String → Option FinnhubData := fun _ => Option.none

/-! ## Helper lemmas about the route -/

/-- The writes contributed by one optional quote. -/
def opsOf (now : ℕ) (o : Option QuoteData) : List (String × UpdatePayload) :=
  match o with
  | Option.none => []
  | some q => [quoteOp now q]

theorem opsOf_cons (now : ℕ) (o : Option QuoteData) (l : List (Option QuoteData)) :
    (List.filterMap id (o :: l)).map (quoteOp now) =
      opsOf now o ++ (List.filterMap id l).map (quoteOp now) := by
  cases o <;> simp [opsOf]

/-- The writes of one run, spelled out per configured instrument. -/
theorem GET_eq_chunks (apiKey : Bool) (y : String → Option YahooMeta)
    (f : String → Option FinnhubData) (now : ℕ) :
    GET apiKey y f now =
      opsOf now (fetchYahooQuote "XAUUSD" (y "GC=F")) ++
        (opsOf now (fetchYahooQuote "EURUSD" (y "EURUSD=X")) ++
          (opsOf now (fetchYahooQuote "GBPUSD" (y "GBPUSD=X")) ++
            (opsOf now (fetchFinnhubQuote "AAPL" apiKey (f "AAPL")) ++
              (opsOf now (fetchFinnhubQuote "TSLA" apiKey (f "TSLA")) ++
                opsOf now (fetchFinnhubQuote "NVDA" apiKey (f "NVDA")))))) := by
  show (List.filterMap id
      (fetchYahooQuote "XAUUSD" (y "GC=F") ::
        fetchYahooQuote "EURUSD" (y "EURUSD=X") ::
          fetchYahooQuote "GBPUSD" (y "GBPUSD=X") ::
            fetchFinnhubQuote "AAPL" apiKey (f "AAPL") ::
              fetchFinnhubQuote "TSLA" apiKey (f "TSLA") ::
                fetchFinnhubQuote "NVDA" apiKey (f "NVDA") :: [])).map (quoteOp now) = _
  rw [opsOf_cons, opsOf_cons, opsOf_cons, opsOf_cons, opsOf_cons, opsOf_cons]
  simp

/-- A quote returned by `fetchYahooQuote` carries the requested symbol. -/
theorem fetchYahooQuote_symbol {sym : String} {r : Option YahooMeta}
    {q : QuoteData} (h : fetchYahooQuote sym r = some q) : q.symbol = sym := by
  cases r with
  | none => exact absurd h (by simp [fetchYahooQuote])
  | some m =>
      simp only [fetchYahooQuote, Option.some.injEq] at h
      rw [← h]

/-- A quote returned by `fetchFinnhubQuote` carries the requested symbol. -/
theorem fetchFinnhubQuote_symbol {sym : String} {apiKey : Bool}
    {r : Option FinnhubData} {q : QuoteData}
    (h : fetchFinnhubQuote sym apiKey r = some q) : q.symbol = sym := by
  cases apiKey with
  | false => exact absurd h (by simp [fetchFinnhubQuote])
  | true =>
      cases r with
      | none => exact absurd h (by simp [fetchFinnhubQuote])
      | some d =>
          simp only [fetchFinnhubQuote] at h
          split at h
          · exact absurd h (by simp)
          · split at h
            · exact absurd h (by simp)
            · injection h with h
              rw [← h]

/-- A failed Finnhub fetch yields no quote whatever the API key is. -/
theorem fetchFinnhubQuote_none (sym : String) (apiKey : Bool) :
    fetchFinnhubQuote sym apiKey Option.none = Option.none := by
  cases apiKey <;> simp [fetchFinnhubQuote]

theorem writesTo_append (a b : List (String × UpdatePayload)) (s : String) :
    writesTo (a ++ b) s = writesTo a s + writesTo b s := by
  simp [writesTo, List.filter_append]

theorem writesTo_opsOf_le (now : ℕ) (o : Option QuoteData) (sym s : String)
    (h : ∀ q, o = some q → q.symbol = sym) :
    writesTo (opsOf now o) s ≤ if sym == s then 1 else 0 := by
  cases o with
  | none => simp [opsOf, writesTo]
  | some q =>
      have hq := h q rfl
      simp only [opsOf, writesTo, quoteOp, hq]
      by_cases hs : sym == s <;> simp [hs, List.filter]

/-- A chunk whose quote (when present) carries symbol `s` disappears
from the writes filtered away from `s`. -/
theorem filter_opsOf_self (now : ℕ) (o : Option QuoteData) (s : String)
    (h : ∀ q, o = some q → q.symbol = s) :
    (opsOf now o).filter (fun op => !(op.1 == s)) = [] := by
  cases o with
  | none => simp [opsOf]
  | some q => simp [opsOf, quoteOp, h q rfl, List.filter]

theorem forall_fst_ne_of_writesTo_zero {ops : List (String × UpdatePayload)}
    {s : String} (h : writesTo ops s = 0) : ∀ op ∈ ops, op.1 ≠ s := by
  intro op hop he
  have hmem : op ∈ ops.filter (fun op => op.1 == s) :=
    List.mem_filter.mpr ⟨hop, by simp [he]⟩
  have hnil : ops.filter (fun op => op.1 == s) = [] :=
    List.length_eq_zero.mp h
  rw [hnil] at hmem
  exact absurd hmem (List.not_mem_nil op)

/-- A row whose symbol receives no write is untouched by the run. -/
theorem rowAfter_no_write :
    ∀ (ops : List (String × UpdatePayload)) (row : SignalRow),
      (∀ op ∈ ops, op.1 ≠ row.symbol) → rowAfter row ops = row := by
  intro ops
  induction ops with
  | nil => intro row _; rfl
  | cons op ops ih =>
      intro row h
      have hne : ¬(row.symbol = op.1) :=
        fun he => h op (List.mem_cons_self op ops) he.symm
      show rowAfter (if row.symbol = op.1 then applyUpdate row op.2 else row) ops = row
      rw [if_neg hne]
      exact ih row (fun o ho => h o (List.mem_cons_of_mem op ho))

/-! ## Helper lemmas about the cache store -/

theorem rowKey_replace (r x : SignalRow) :
    rowKey (if rowKey x = rowKey r then r else x) = rowKey x := by
  by_cases h : rowKey x = rowKey r
  · simp [h]
  · simp [h]

theorem countKey_cons (a : SignalRow) (tl : List SignalRow) (k : String × String) :
    countKey (a :: tl) k = countKey tl k + (if rowKey a = k then 1 else 0) := by
  by_cases hk : rowKey a = k <;> simp [countKey, List.filter_cons, hk]

theorem countKey_append (t₁ t₂ : List SignalRow) (k : String × String) :
    countKey (t₁ ++ t₂) k = countKey t₁ k + countKey t₂ k := by
  simp [countKey, List.filter_append]

theorem countKey_eq_zero {tbl : List SignalRow} {k : String × String}
    (h : ∀ x ∈ tbl, rowKey x ≠ k) : countKey tbl k = 0 := by
  induction tbl with
  | nil => rfl
  | cons a tl ih =>
      rw [countKey_cons, ih (fun x hx => h x (List.mem_cons_of_mem a hx)),
        if_neg (h a (List.mem_cons_self a tl))]

theorem countKey_le_one_of_unique {tbl : List SignalRow}
    (h : UniqueSymbolTimeframe tbl) : ∀ k, countKey tbl k ≤ 1 := by
  induction tbl with
  | nil => intro k; simp [countKey]
  | cons a tl ih =>
      intro k
      rcases List.pairwise_cons.mp h with ⟨ha, htl⟩
      rw [countKey_cons]
      by_cases hk : rowKey a = k
      · have h0 : countKey tl k = 0 :=
          countKey_eq_zero (fun x hx hxk => ha x hx (hk.trans hxk.symm))
        rw [if_pos hk, h0]
      · rw [if_neg hk]
        have := ih htl k
        omega

theorem countKey_pos_of_mem {tbl : List SignalRow} {x : SignalRow}
    (hx : x ∈ tbl) : 1 ≤ countKey tbl (rowKey x) := by
  have hm : x ∈ tbl.filter (fun r => rowKey r = rowKey x) :=
    List.mem_filter.mpr ⟨hx, by simp⟩
  exact List.length_pos_of_mem hm

theorem countKey_replace_map (tbl : List SignalRow) (r : SignalRow)
    (k : String × String) :
    countKey (tbl.map (fun x => if rowKey x = rowKey r then r else x)) k =
      countKey tbl k := by
  induction tbl with
  | nil => rfl
  | cons a tl ih =>
      rw [List.map_cons, countKey_cons, countKey_cons, ih, rowKey_replace]

theorem unique_replace_map {tbl : List SignalRow} (r : SignalRow)
    (h : UniqueSymbolTimeframe tbl) :
    UniqueSymbolTimeframe
      (tbl.map (fun x => if rowKey x = rowKey r then r else x)) := by
  refine List.pairwise_map.mpr (h.imp ?_)
  intro a b hab
  rw [rowKey_replace, rowKey_replace]
  exact hab

/-! ## C1 -/

/-- C1: the cache store keeps at most one live row per
`(symbol, timeframe)` key — the unique index `idx_signals_cache_symbol_tf`
— and the upsert keyed by `(symbol, timeframe)` preserves that
uniqueness, with the upserted key present exactly once afterwards; the
legacy unique index on `symbol` alone implies the same per-key
uniqueness. -/
theorem signals_cache_upsert_unique (tbl : List SignalRow) (r : SignalRow)
    (h : UniqueSymbolTimeframe tbl) :
    UniqueSymbolTimeframe (upsert r tbl) ∧
    countKey (upsert r tbl) (rowKey r) = 1 ∧
    (∀ k, countKey (upsert r tbl) k ≤ 1) ∧
    (∀ tbl₂ : List SignalRow, UniqueSymbol tbl₂ → UniqueSymbolTimeframe tbl₂) := by
  have hlegacy : ∀ tbl₂ : List SignalRow, UniqueSymbol tbl₂ →
      UniqueSymbolTimeframe tbl₂ := by
    intro tbl₂ h₂
    refine h₂.imp ?_
    intro a b hab hk
    exact hab (congrArg Prod.fst hk)
  unfold upsert
  by_cases hany : tbl.any (fun x => rowKey x = rowKey r)
  · rw [if_pos hany]
    have hex : ∃ x ∈ tbl, rowKey x = rowKey r := by
      simpa using hany
    obtain ⟨x, hx, hxk⟩ := hex
    refine ⟨unique_replace_map r h, ?_, fun k => ?_, hlegacy⟩
    · rw [countKey_replace_map]
      have h1 : 1 ≤ countKey tbl (rowKey r) := hxk ▸ countKey_pos_of_mem hx
      have h2 := countKey_le_one_of_unique h (rowKey r)
      omega
    · rw [countKey_replace_map]
      exact countKey_le_one_of_unique h k
  · rw [if_neg hany]
    have hnot : ∀ x ∈ tbl, rowKey x ≠ rowKey r := by
      intro x hx
      simp only [List.any_eq_true, decide_eq_true_eq, not_exists, not_and] at hany
      exact fun hk => (hany x hx) hk
    have huniq : UniqueSymbolTimeframe (tbl ++ [r]) := by
      refine List.pairwise_append.mpr ⟨h, List.pairwise_singleton _ r, ?_⟩
      intro a ha b hb
      rw [List.mem_singleton.mp hb]
      exact hnot a ha
    refine ⟨huniq, ?_, fun k => ?_, hlegacy⟩
    · rw [countKey_append, countKey_eq_zero hnot]
      simp [countKey]
    · rw [countKey_append]
      have h1 := countKey_le_one_of_unique h k
      have h2 : countKey [r] k ≤ 1 := by
        by_cases hk : rowKey r = k <;> simp [countKey, List.filter, hk]
      by_cases hk : rowKey r = k
      · have h0 : countKey tbl k = 0 :=
          countKey_eq_zero (fun x hx hxk => hnot x hx (hxk.trans hk.symm))
        omega
      · have h0 : countKey [r] k = 0 := countKey_eq_zero (by simpa using hk)
        omega

/-- C1 witness: upserting the sample row into the empty table yields a
table satisfying the index constraint with the key present once. -/
theorem signals_cache_upsert_unique_witness :
    UniqueSymbolTimeframe (upsert sampleRow []) ∧
    countKey (upsert sampleRow []) (rowKey sampleRow) = 1 :=
  ⟨(signals_cache_upsert_unique [] sampleRow List.Pairwise.nil).1,
   (signals_cache_upsert_unique [] sampleRow List.Pairwise.nil).2.1⟩

theorem writesTo_opsOf_ne (now : ℕ) (o : Option QuoteData) (sym s : String)
    (h : ∀ q, o = some q → q.symbol = sym) (hne : sym ≠ s) :
    writesTo (opsOf now o) s = 0 := by
  cases o with
  | none => rfl
  | some q =>
      have hb : (sym == s) = false := beq_eq_false_iff_ne.mpr hne
      simp [opsOf, writesTo, quoteOp, h q rfl, List.filter, hb]

/-- The quote of the sample Yahoo response: price 105 against a previous
close of 100 gives a change of 5 and a percent change of 5. -/
theorem yahoo_sample_quote :
    fetchYahooQuote "XAUUSD" (yRespSample "GC=F") =
      some { symbol := "XAUUSD", price := JVal.num 105, change := JVal.num 5,
             changePercent := JVal.num 5, source := "yahoo" } := by
  have hy : yRespSample "GC=F" =
      some { regularMarketPrice := JVal.num 105,
             chartPreviousClose := JVal.num 100, previousClose := JVal.num 100 } := rfl
  rw [hy]
  simp only [fetchYahooQuote, JVal.orElse, JVal.falsy, JVal.sub, JVal.div, JVal.toNum,
    JVal.mul]
  norm_num

/-- The writes of a run against the sample responses: a single update
for XAUUSD. -/
theorem GET_yRespSample_eq (now : ℕ) :
    GET false yRespSample fRespNone now =
      [("XAUUSD", { current_price := JVal.num 105, price_change_pct := JVal.num 5,
                    last_updated_at := now })] := by
  rw [GET_eq_chunks, yahoo_sample_quote]
  have h2 : yRespSample "EURUSD=X" = Option.none := rfl
  have h3 : yRespSample "GBPUSD=X" = Option.none := rfl
  rw [h2, h3]
  simp [opsOf, quoteOp, fetchYahooQuote, fetchFinnhubQuote, fRespNone]

/-- The quote of the zero-previous-close Yahoo response: the percent
change `(100 - 0) / 0 * 100` evaluates to `Infinity`. -/
theorem yahoo_zeroPrev_quote :
    fetchYahooQuote "XAUUSD" (yRespZeroPrev "GC=F") =
      some { symbol := "XAUUSD", price := JVal.num 100, change := JVal.num 100,
             changePercent := JVal.inf, source := "yahoo" } := by
  have hy : yRespZeroPrev "GC=F" =
      some { regularMarketPrice := JVal.num 100,
             chartPreviousClose := JVal.undef, previousClose := JVal.num 0 } := rfl
  rw [hy]
  simp only [fetchYahooQuote, JVal.orElse, JVal.falsy, JVal.sub, JVal.div, JVal.toNum,
    JVal.mul]
  norm_num

/-- The writes of a run against the zero-previous-close responses: a
single update for XAUUSD carrying `Infinity` as the percent change. -/
theorem GET_yRespZeroPrev_eq (now : ℕ) :
    GET false yRespZeroPrev fRespNone now =
      [("XAUUSD", { current_price := JVal.num 100, price_change_pct := JVal.inf,
                    last_updated_at := now })] := by
  rw [GET_eq_chunks, yahoo_zeroPrev_quote]
  have h2 : yRespZeroPrev "EURUSD=X" = Option.none := rfl
  have h3 : yRespZeroPrev "GBPUSD=X" = Option.none := rfl
  rw [h2, h3]
  simp [opsOf, quoteOp, fetchYahooQuote, fetchFinnhubQuote, fRespNone]

/-! ## C2 -/

/-- C2 counterexample: the price-refresh run issues an update for
XAUUSD whose application to a stored record changes `current_price` but
leaves `entry_price`, `stop_loss` and `rsi_14` from the older
computation in place — a partial column patch, not a whole-record
replacement. -/
theorem update_prices_partial_patch_cex :
    GET false yRespSample fRespNone 1000 =
      [("XAUUSD", { current_price := JVal.num 105, price_change_pct := JVal.num 5,
                    last_updated_at := 1000 })] ∧
    (applyUpdate sampleRow
        { current_price := JVal.num 105, price_change_pct := JVal.num 5,
          last_updated_at := 1000 }).entry_price = sampleRow.entry_price ∧
    (applyUpdate sampleRow
        { current_price := JVal.num 105, price_change_pct := JVal.num 5,
          last_updated_at := 1000 }).stop_loss = sampleRow.stop_loss ∧
    (applyUpdate sampleRow
        { current_price := JVal.num 105, price_change_pct := JVal.num 5,
          last_updated_at := 1000 }).rsi_14 = sampleRow.rsi_14 ∧
    (applyUpdate sampleRow
        { current_price := JVal.num 105, price_change_pct := JVal.num 5,
          last_updated_at := 1000 }).current_price ≠ sampleRow.current_price := by
  refine ⟨GET_yRespSample_eq 1000, rfl, rfl, rfl, ?_⟩
  intro h
  simp only [applyUpdate, sampleRow, JVal.num.injEq] at h
  norm_num at h

/-- C2 amended: the write path of the price-refresh route is a partial
column update — it sets exactly `current_price`, `price_change_pct` and
`last_updated_at` and leaves every other column of the record, including
the money-management and indicator fields of the older computation,
unchanged. -/
theorem update_prices_frame (row : SignalRow) (p : UpdatePayload) :
    (applyUpdate row p).current_price = p.current_price ∧
    (applyUpdate row p).price_change_pct = p.price_change_pct ∧
    (applyUpdate row p).last_updated_at = p.last_updated_at ∧
    (applyUpdate row p).id = row.id ∧
    (applyUpdate row p).asset_id = row.asset_id ∧
    (applyUpdate row p).symbol = row.symbol ∧
    (applyUpdate row p).timeframe = row.timeframe ∧
    (applyUpdate row p).high_24h = row.high_24h ∧
    (applyUpdate row p).low_24h = row.low_24h ∧
    (applyUpdate row p).rsi_14 = row.rsi_14 ∧
    (applyUpdate row p).rsi_signal = row.rsi_signal ∧
    (applyUpdate row p).atr_14 = row.atr_14 ∧
    (applyUpdate row p).sma_20 = row.sma_20 ∧
    (applyUpdate row p).sma_50 = row.sma_50 ∧
    (applyUpdate row p).entry_price = row.entry_price ∧
    (applyUpdate row p).stop_loss = row.stop_loss ∧
    (applyUpdate row p).take_profit_1 = row.take_profit_1 ∧
    (applyUpdate row p).take_profit_2 = row.take_profit_2 ∧
    (applyUpdate row p).risk_reward_ratio = row.risk_reward_ratio ∧
    (applyUpdate row p).signal_direction = row.signal_direction ∧
    (applyUpdate row p).sentiment_score = row.sentiment_score ∧
    (applyUpdate row p).sentiment_label = row.sentiment_label ∧
    (applyUpdate row p).news_count = row.news_count ∧
    (applyUpdate row p).hybrid_score = row.hybrid_score ∧
    (applyUpdate row p).hybrid_verdict = row.hybrid_verdict ∧
    (applyUpdate row p).confidence_level = row.confidence_level ∧
    (applyUpdate row p).ai_summary = row.ai_summary ∧
    (applyUpdate row p).ai_recommendation = row.ai_recommendation ∧
    (applyUpdate row p).data_source = row.data_source ∧
    (applyUpdate row p).next_update_at = row.next_update_at ∧
    (applyUpdate row p).created_at = row.created_at :=
  ⟨rfl, rfl, rfl, rfl, rfl, rfl, rfl, rfl, rfl, rfl, rfl, rfl, rfl, rfl, rfl, rfl,
   rfl, rfl, rfl, rfl, rfl, rfl, rfl, rfl, rfl, rfl, rfl, rfl, rfl, rfl, rfl⟩

/-! ## C7 -/

/-- C7 counterexample: a successful refresh for XAUUSD at time 1000 sets
`last_updated_at` to 1000 but leaves `next_update_at` untouched (here:
never set at all) — it is not set to now plus a refresh interval. -/
theorem update_prices_next_update_cex :
    GET false yRespSample fRespNone 1000 =
      [("XAUUSD", { current_price := JVal.num 105, price_change_pct := JVal.num 5,
                    last_updated_at := 1000 })] ∧
    (applyUpdate sampleRow
        { current_price := JVal.num 105, price_change_pct := JVal.num 5,
          last_updated_at := 1000 }).last_updated_at = 1000 ∧
    (applyUpdate sampleRow
        { current_price := JVal.num 105, price_change_pct := JVal.num 5,
          last_updated_at := 1000 }).next_update_at = Option.none :=
  ⟨GET_yRespSample_eq 1000, rfl, rfl⟩

/-- C7 amended: every write issued by a run at time `now` sets the
record's `last_updated_at` to `now` and leaves `next_update_at` exactly
as it was — the route never schedules the next update. -/
theorem update_prices_sets_last_updated_only
    (apiKey : Bool) (y : String → Option YahooMeta)
    (f : String → Option FinnhubData) (now : ℕ) (s : String)
    (p : UpdatePayload) (row : SignalRow)
    (hmem : (s, p) ∈ GET apiKey y f now) :
    (applyUpdate row p).last_updated_at = now ∧
    (applyUpdate row p).next_update_at = row.next_update_at := by
  obtain ⟨q, _, heq⟩ := List.mem_map.mp hmem
  have h2 : (quoteOp now q).2 = p := congrArg Prod.snd heq
  refine ⟨?_, rfl⟩
  rw [← h2]
  rfl

/-- C7 amended witness: the concrete XAUUSD write of the sample run at
time 1000. -/
theorem update_prices_sets_last_updated_only_witness :
    (applyUpdate sampleRow
        { current_price := JVal.num 105, price_change_pct := JVal.num 5,
          last_updated_at := 1000 }).last_updated_at = 1000 ∧
    (applyUpdate sampleRow
        { current_price := JVal.num 105, price_change_pct := JVal.num 5,
          last_updated_at := 1000 }).next_update_at = sampleRow.next_update_at :=
  update_prices_sets_last_updated_only false yRespSample fRespNone 1000 "XAUUSD"
    _ sampleRow (by rw [GET_yRespSample_eq]; exact List.mem_singleton.mpr rfl)

/-! ## C6 -/

/-- C6 counterexample: on a quote whose previous close is zero the
percent-change division yields `Infinity`, and the run writes that
`Infinity` into the `price_change_pct` field of the update payload — the
field is not forced to null. -/
theorem update_prices_infinity_written_cex :
    GET false yRespZeroPrev fRespNone 0 =
      [("XAUUSD", { current_price := JVal.num 100, price_change_pct := JVal.inf,
                    last_updated_at := 0 })] ∧
    JVal.inf ≠ JVal.null ∧ JVal.inf ≠ JVal.num 0 :=
  ⟨GET_yRespZeroPrev_eq 0, by decide, by decide⟩

/-- C6 amended: the route has no NaN/Infinity guard — when the previous
close is zero and the price is a positive finite number, the Yahoo quote
carries `changePercent = Infinity`, and every update payload of a run
copies the quote price and percent change verbatim into the stored
columns. -/
theorem update_prices_changePercent_unguarded
    (sym : String) (meta : YahooMeta) (c : ℚ) (apiKey : Bool)
    (y : String → Option YahooMeta) (f : String → Option FinnhubData)
    (now : ℕ) (s : String) (p : UpdatePayload) :
    (meta.regularMarketPrice = JVal.num c → meta.chartPreviousClose = JVal.undef →
      meta.previousClose = JVal.num 0 → 0 < c →
      fetchYahooQuote sym (some meta) =
        some { symbol := sym, price := JVal.num c, change := JVal.num c,
               changePercent := JVal.inf, source := "yahoo" }) ∧
    ((s, p) ∈ GET apiKey y f now →
      ∃ q ∈ (quoteResults apiKey y f).filterMap id,
        s = q.symbol ∧ p.current_price = q.price ∧
        p.price_change_pct = q.changePercent ∧ p.last_updated_at = now) := by
  constructor
  · intro h1 h2 h3 hc
    obtain ⟨rp, cpc, pc⟩ := meta
    simp only at h1 h2 h3
    subst h1; subst h2; subst h3
    simp only [fetchYahooQuote, JVal.orElse, JVal.falsy, JVal.toNum, JVal.sub,
      JVal.div, JVal.mul]
    norm_num [sub_zero, hc, hc.ne']
  · intro hmem
    obtain ⟨q, hq, heq⟩ := List.mem_map.mp hmem
    have h1 : q.symbol = s := congrArg Prod.fst heq
    have h2 : (quoteOp now q).2 = p := congrArg Prod.snd heq
    refine ⟨q, hq, h1.symm, ?_, ?_, ?_⟩ <;> rw [← h2] <;> rfl

/-- C6 amended witness: the concrete zero-previous-close quote and the
concrete XAUUSD write of the corresponding run. -/
theorem update_prices_changePercent_unguarded_witness :
    fetchYahooQuote "XAUUSD"
        (some { regularMarketPrice := JVal.num 100,
                chartPreviousClose := JVal.undef, previousClose := JVal.num 0 }) =
      some { symbol := "XAUUSD", price := JVal.num 100, change := JVal.num 100,
             changePercent := JVal.inf, source := "yahoo" } ∧
    (∃ q ∈ (quoteResults false yRespZeroPrev fRespNone).filterMap id,
      "XAUUSD" = q.symbol ∧
      ({ current_price := JVal.num 100, price_change_pct := JVal.inf,
         last_updated_at := 0 } : UpdatePayload).current_price = q.price ∧
      ({ current_price := JVal.num 100, price_change_pct := JVal.inf,
         last_updated_at := 0 } : UpdatePayload).price_change_pct = q.changePercent ∧
      ({ current_price := JVal.num 100, price_change_pct := JVal.inf,
         last_updated_at := 0 } : UpdatePayload).last_updated_at = 0) := by
  constructor
  · exact (update_prices_changePercent_unguarded "XAUUSD"
      { regularMarketPrice := JVal.num 100, chartPreviousClose := JVal.undef,
        previousClose := JVal.num 0 } 100 false yRespZeroPrev fRespNone 0 "XAUUSD"
      { current_price := JVal.num 100, price_change_pct := JVal.inf,
        last_updated_at := 0 }).1 rfl rfl rfl (by norm_num)
  · exact (update_prices_changePercent_unguarded "XAUUSD"
      { regularMarketPrice := JVal.num 100, chartPreviousClose := JVal.undef,
        previousClose := JVal.num 0 } 100 false yRespZeroPrev fRespNone 0 "XAUUSD"
      { current_price := JVal.num 100, price_change_pct := JVal.inf,
        last_updated_at := 0 }).2
      (by rw [GET_yRespZeroPrev_eq]; exact List.mem_singleton.mpr rfl)

/-! ## C9 -/

/-- C9 counterexample: two runs against the same feed state (two
simultaneous refreshes of the same cycle) land two persisted updates for
the XAUUSD key, not exactly one — nothing serializes concurrent runs. -/
theorem concurrent_runs_two_writes_cex :
    writesTo (GET false yRespSample fRespNone 1000 ++
        GET false yRespSample fRespNone 1001) "XAUUSD" = 2 := by
  rw [GET_yRespSample_eq 1000, GET_yRespSample_eq 1001]
  rfl

/-- C9 amended: within one run at most one update is issued per symbol
(the configured instruments are pairwise distinct and each contributes
at most one write), but concurrent runs are not serialized — the writes
of two runs simply accumulate, so each run lands its own update on the
key. -/
theorem run_writes_per_symbol (apiKey apiKey₂ : Bool)
    (y y₂ : String → Option YahooMeta) (f f₂ : String → Option FinnhubData)
    (now now₂ : ℕ) (s : String) :
    writesTo (GET apiKey y f now) s ≤ 1 ∧
    writesTo (GET apiKey y f now ++ GET apiKey₂ y₂ f₂ now₂) s =
      writesTo (GET apiKey y f now) s + writesTo (GET apiKey₂ y₂ f₂ now₂) s := by
  refine ⟨?_, writesTo_append _ _ s⟩
  rw [GET_eq_chunks]
  rw [writesTo_append, writesTo_append, writesTo_append, writesTo_append,
    writesTo_append]
  have b1 := writesTo_opsOf_le now (fetchYahooQuote "XAUUSD" (y "GC=F"))
    "XAUUSD" s (fun q h => fetchYahooQuote_symbol h)
  have b2 := writesTo_opsOf_le now (fetchYahooQuote "EURUSD" (y "EURUSD=X"))
    "EURUSD" s (fun q h => fetchYahooQuote_symbol h)
  have b3 := writesTo_opsOf_le now (fetchYahooQuote "GBPUSD" (y "GBPUSD=X"))
    "GBPUSD" s (fun q h => fetchYahooQuote_symbol h)
  have b4 := writesTo_opsOf_le now (fetchFinnhubQuote "AAPL" apiKey (f "AAPL"))
    "AAPL" s (fun q h => fetchFinnhubQuote_symbol h)
  have b5 := writesTo_opsOf_le now (fetchFinnhubQuote "TSLA" apiKey (f "TSLA"))
    "TSLA" s (fun q h => fetchFinnhubQuote_symbol h)
  have b6 := writesTo_opsOf_le now (fetchFinnhubQuote "NVDA" apiKey (f "NVDA"))
    "NVDA" s (fun q h => fetchFinnhubQuote_symbol h)
  have hsum : (if ("XAUUSD" : String) == s then 1 else 0) +
      ((if ("EURUSD" : String) == s then 1 else 0) +
        ((if ("GBPUSD" : String) == s then 1 else 0) +
          ((if ("AAPL" : String) == s then 1 else 0) +
            ((if ("TSLA" : String) == s then 1 else 0) +
              (if ("NVDA" : String) == s then 1 else 0))))) ≤ 1 := by
    simp only [beq_iff_eq]
    by_cases h1 : "XAUUSD" = s
    · subst h1; decide
    by_cases h2 : "EURUSD" = s
    · subst h2; decide
    by_cases h3 : "GBPUSD" = s
    · subst h3; decide
    by_cases h4 : "AAPL" = s
    · subst h4; decide
    by_cases h5 : "TSLA" = s
    · subst h5; decide
    by_cases h6 : "NVDA" = s
    · subst h6; decide
    rw [if_neg h1, if_neg h2, if_neg h3, if_neg h4, if_neg h5, if_neg h6]
    decide
  exact le_trans
    (Nat.add_le_add b1 (Nat.add_le_add b2 (Nat.add_le_add b3
      (Nat.add_le_add b4 (Nat.add_le_add b5 b6))))) hsum

/-! ## C5 -/

/-- C5: when the quote fetch of one configured instrument fails, the run
issues no write for that instrument — a stored row with its symbol is
left exactly as it was — and the writes issued for all the other
instruments are the same as in a run where that instrument's feed
behaved differently; stated for a failing Yahoo instrument (first
conjunct) and a failing Finnhub instrument (second conjunct). -/
theorem update_prices_failure_isolation
    (apiKey : Bool) (y y₂ : String → Option YahooMeta)
    (f f₂ : String → Option FinnhubData) (now : ℕ)
    (s c : String) (row : SignalRow) :
    ((s, c) ∈ YAHOO_SYMBOLS → y c = Option.none →
      (∀ c₂, c₂ ≠ c → y₂ c₂ = y c₂) → row.symbol = s →
      rowAfter row (GET apiKey y f now) = row ∧
      (GET apiKey y f now).filter (fun op => !(op.1 == s)) =
        (GET apiKey y₂ f now).filter (fun op => !(op.1 == s))) ∧
    (s ∈ FINNHUB_SYMBOLS → f s = Option.none →
      (∀ s₂, s₂ ≠ s → f₂ s₂ = f s₂) → row.symbol = s →
      rowAfter row (GET apiKey y f now) = row ∧
      (GET apiKey y f now).filter (fun op => !(op.1 == s)) =
        (GET apiKey y f₂ now).filter (fun op => !(op.1 == s))) := by
  constructor
  · intro hmem hfail hagree hrow
    simp only [YAHOO_SYMBOLS, List.mem_cons, List.mem_singleton,
      Prod.mk.injEq, List.not_mem_nil, or_false] at hmem
    rcases hmem with ⟨rfl, rfl⟩ | ⟨rfl, rfl⟩ | ⟨rfl, rfl⟩ <;>
      refine ⟨?_, ?_⟩
    case _ =>
      have hz : writesTo (GET apiKey y f now) "XAUUSD" = 0 := by
        rw [GET_eq_chunks, writesTo_append, writesTo_append, writesTo_append,
          writesTo_append, writesTo_append]
        have z1 : writesTo (opsOf now (fetchYahooQuote "XAUUSD" (y "GC=F")))
            "XAUUSD" = 0 := by rw [hfail]; rfl
        have z2 := writesTo_opsOf_ne now (fetchYahooQuote "EURUSD" (y "EURUSD=X"))
          "EURUSD" "XAUUSD" (fun q h => fetchYahooQuote_symbol h) (by decide)
        have z3 := writesTo_opsOf_ne now (fetchYahooQuote "GBPUSD" (y "GBPUSD=X"))
          "GBPUSD" "XAUUSD" (fun q h => fetchYahooQuote_symbol h) (by decide)
        have z4 := writesTo_opsOf_ne now (fetchFinnhubQuote "AAPL" apiKey (f "AAPL"))
          "AAPL" "XAUUSD" (fun q h => fetchFinnhubQuote_symbol h) (by decide)
        have z5 := writesTo_opsOf_ne now (fetchFinnhubQuote "TSLA" apiKey (f "TSLA"))
          "TSLA" "XAUUSD" (fun q h => fetchFinnhubQuote_symbol h) (by decide)
        have z6 := writesTo_opsOf_ne now (fetchFinnhubQuote "NVDA" apiKey (f "NVDA"))
          "NVDA" "XAUUSD" (fun q h => fetchFinnhubQuote_symbol h) (by decide)
        omega
      exact rowAfter_no_write _ row
        (fun op hop => by rw [hrow]; exact forall_fst_ne_of_writesTo_zero hz op hop)
    case _ =>
      have hy1 : fetchYahooQuote "XAUUSD" (y "GC=F") = Option.none := by
        rw [hfail]; rfl
      rw [GET_eq_chunks apiKey y f now, GET_eq_chunks apiKey y₂ f now, hy1,
        hagree "EURUSD=X" (by decide), hagree "GBPUSD=X" (by decide)]
      simp only [List.filter_append]
      rw [filter_opsOf_self now (fetchYahooQuote "XAUUSD" (y₂ "GC=F")) "XAUUSD"
        (fun q hq => fetchYahooQuote_symbol hq)]
      rfl
    case _ =>
      have hz : writesTo (GET apiKey y f now) "EURUSD" = 0 := by
        rw [GET_eq_chunks, writesTo_append, writesTo_append, writesTo_append,
          writesTo_append, writesTo_append]
        have z1 := writesTo_opsOf_ne now (fetchYahooQuote "XAUUSD" (y "GC=F"))
          "XAUUSD" "EURUSD" (fun q h => fetchYahooQuote_symbol h) (by decide)
        have z2 : writesTo (opsOf now (fetchYahooQuote "EURUSD" (y "EURUSD=X")))
            "EURUSD" = 0 := by rw [hfail]; rfl
        have z3 := writesTo_opsOf_ne now (fetchYahooQuote "GBPUSD" (y "GBPUSD=X"))
          "GBPUSD" "EURUSD" (fun q h => fetchYahooQuote_symbol h) (by decide)
        have z4 := writesTo_opsOf_ne now (fetchFinnhubQuote "AAPL" apiKey (f "AAPL"))
          "AAPL" "EURUSD" (fun q h => fetchFinnhubQuote_symbol h) (by decide)
        have z5 := writesTo_opsOf_ne now (fetchFinnhubQuote "TSLA" apiKey (f "TSLA"))
          "TSLA" "EURUSD" (fun q h => fetchFinnhubQuote_symbol h) (by decide)
        have z6 := writesTo_opsOf_ne now (fetchFinnhubQuote "NVDA" apiKey (f "NVDA"))
          "NVDA" "EURUSD" (fun q h => fetchFinnhubQuote_symbol h) (by decide)
        omega
      exact rowAfter_no_write _ row
        (fun op hop => by rw [hrow]; exact forall_fst_ne_of_writesTo_zero hz op hop)
    case _ =>
      have hy1 : fetchYahooQuote "EURUSD" (y "EURUSD=X") = Option.none := by
        rw [hfail]; rfl
      rw [GET_eq_chunks apiKey y f now, GET_eq_chunks apiKey y₂ f now, hy1,
        hagree "GC=F" (by decide), hagree "GBPUSD=X" (by decide)]
      simp only [List.filter_append]
      rw [filter_opsOf_self now (fetchYahooQuote "EURUSD" (y₂ "EURUSD=X")) "EURUSD"
        (fun q hq => fetchYahooQuote_symbol hq)]
      rfl
    case _ =>
      have hz : writesTo (GET apiKey y f now) "GBPUSD" = 0 := by
        rw [GET_eq_chunks, writesTo_append, writesTo_append, writesTo_append,
          writesTo_append, writesTo_append]
        have z1 := writesTo_opsOf_ne now (fetchYahooQuote "XAUUSD" (y "GC=F"))
          "XAUUSD" "GBPUSD" (fun q h => fetchYahooQuote_symbol h) (by decide)
        have z2 := writesTo_opsOf_ne now (fetchYahooQuote "EURUSD" (y "EURUSD=X"))
          "EURUSD" "GBPUSD" (fun q h => fetchYahooQuote_symbol h) (by decide)
        have z3 : writesTo (opsOf now (fetchYahooQuote "GBPUSD" (y "GBPUSD=X")))
            "GBPUSD" = 0 := by rw [hfail]; rfl
        have z4 := writesTo_opsOf_ne now (fetchFinnhubQuote "AAPL" apiKey (f "AAPL"))
          "AAPL" "GBPUSD" (fun q h => fetchFinnhubQuote_symbol h) (by decide)
        have z5 := writesTo_opsOf_ne now (fetchFinnhubQuote "TSLA" apiKey (f "TSLA"))
          "TSLA" "GBPUSD" (fun q h => fetchFinnhubQuote_symbol h) (by decide)
        have z6 := writesTo_opsOf_ne now (fetchFinnhubQuote "NVDA" apiKey (f "NVDA"))
          "NVDA" "GBPUSD" (fun q h => fetchFinnhubQuote_symbol h) (by decide)
        omega
      exact rowAfter_no_write _ row
        (fun op hop => by rw [hrow]; exact forall_fst_ne_of_writesTo_zero hz op hop)
    case _ =>
      have hy1 : fetchYahooQuote "GBPUSD" (y "GBPUSD=X") = Option.none := by
        rw [hfail]; rfl
      rw [GET_eq_chunks apiKey y f now, GET_eq_chunks apiKey y₂ f now, hy1,
        hagree "GC=F" (by decide), hagree "EURUSD=X" (by decide)]
      simp only [List.filter_append]
      rw [filter_opsOf_self now (fetchYahooQuote "GBPUSD" (y₂ "GBPUSD=X")) "GBPUSD"
        (fun q hq => fetchYahooQuote_symbol hq)]
      rfl
  · intro hmem hfail hagree hrow
    simp only [FINNHUB_SYMBOLS, List.mem_cons, List.mem_singleton,
      List.not_mem_nil, or_false] at hmem
    rcases hmem with rfl | rfl | rfl <;> refine ⟨?_, ?_⟩
    case _ =>
      have hz : writesTo (GET apiKey y f now) "AAPL" = 0 := by
        rw [GET_eq_chunks, writesTo_append, writesTo_append, writesTo_append,
          writesTo_append, writesTo_append]
        have z1 := writesTo_opsOf_ne now (fetchYahooQuote "XAUUSD" (y "GC=F"))
          "XAUUSD" "AAPL" (fun q h => fetchYahooQuote_symbol h) (by decide)
        have z2 := writesTo_opsOf_ne now (fetchYahooQuote "EURUSD" (y "EURUSD=X"))
          "EURUSD" "AAPL" (fun q h => fetchYahooQuote_symbol h) (by decide)
        have z3 := writesTo_opsOf_ne now (fetchYahooQuote "GBPUSD" (y "GBPUSD=X"))
          "GBPUSD" "AAPL" (fun q h => fetchYahooQuote_symbol h) (by decide)
        have z4 : writesTo (opsOf now (fetchFinnhubQuote "AAPL" apiKey (f "AAPL")))
            "AAPL" = 0 := by rw [hfail, fetchFinnhubQuote_none]; rfl
        have z5 := writesTo_opsOf_ne now (fetchFinnhubQuote "TSLA" apiKey (f "TSLA"))
          "TSLA" "AAPL" (fun q h => fetchFinnhubQuote_symbol h) (by decide)
        have z6 := writesTo_opsOf_ne now (fetchFinnhubQuote "NVDA" apiKey (f "NVDA"))
          "NVDA" "AAPL" (fun q h => fetchFinnhubQuote_symbol h) (by decide)
        omega
      exact rowAfter_no_write _ row
        (fun op hop => by rw [hrow]; exact forall_fst_ne_of_writesTo_zero hz op hop)
    case _ =>
      have hf1 : fetchFinnhubQuote "AAPL" apiKey (f "AAPL") = Option.none := by
        rw [hfail, fetchFinnhubQuote_none]
      rw [GET_eq_chunks apiKey y f now, GET_eq_chunks apiKey y f₂ now, hf1,
        hagree "TSLA" (by decide), hagree "NVDA" (by decide)]
      simp only [List.filter_append]
      rw [filter_opsOf_self now (fetchFinnhubQuote "AAPL" apiKey (f₂ "AAPL")) "AAPL"
        (fun q hq => fetchFinnhubQuote_symbol hq)]
      rfl
    case _ =>
      have hz : writesTo (GET apiKey y f now) "TSLA" = 0 := by
        rw [GET_eq_chunks, writesTo_append, writesTo_append, writesTo_append,
          writesTo_append, writesTo_append]
        have z1 := writesTo_opsOf_ne now (fetchYahooQuote "XAUUSD" (y "GC=F"))
          "XAUUSD" "TSLA" (fun q h => fetchYahooQuote_symbol h) (by decide)
        have z2 := writesTo_opsOf_ne now (fetchYahooQuote "EURUSD" (y "EURUSD=X"))
          "EURUSD" "TSLA" (fun q h => fetchYahooQuote_symbol h) (by decide)
        have z3 := writesTo_opsOf_ne now (fetchYahooQuote "GBPUSD" (y "GBPUSD=X"))
          "GBPUSD" "TSLA" (fun q h => fetchYahooQuote_symbol h) (by decide)
        have z4 := writesTo_opsOf_ne now (fetchFinnhubQuote "AAPL" apiKey (f "AAPL"))
          "AAPL" "TSLA" (fun q h => fetchFinnhubQuote_symbol h) (by decide)
        have z5 : writesTo (opsOf now (fetchFinnhubQuote "TSLA" apiKey (f "TSLA")))
            "TSLA" = 0 := by rw [hfail, fetchFinnhubQuote_none]; rfl
        have z6 := writesTo_opsOf_ne now (fetchFinnhubQuote "NVDA" apiKey (f "NVDA"))
          "NVDA" "TSLA" (fun q h => fetchFinnhubQuote_symbol h) (by decide)
        omega
      exact rowAfter_no_write _ row
        (fun op hop => by rw [hrow]; exact forall_fst_ne_of_writesTo_zero hz op hop)
    case _ =>
      have hf1 : fetchFinnhubQuote "TSLA" apiKey (f "TSLA") = Option.none := by
        rw [hfail, fetchFinnhubQuote_none]
      rw [GET_eq_chunks apiKey y f now, GET_eq_chunks apiKey y f₂ now, hf1,
        hagree "AAPL" (by decide), hagree "NVDA" (by decide)]
      simp only [List.filter_append]
      rw [filter_opsOf_self now (fetchFinnhubQuote "TSLA" apiKey (f₂ "TSLA")) "TSLA"
        (fun q hq => fetchFinnhubQuote_symbol hq)]
      rfl
    case _ =>
      have hz : writesTo (GET apiKey y f now) "NVDA" = 0 := by
        rw [GET_eq_chunks, writesTo_append, writesTo_append, writesTo_append,
          writesTo_append, writesTo_append]
        have z1 := writesTo_opsOf_ne now (fetchYahooQuote "XAUUSD" (y "GC=F"))
          "XAUUSD" "NVDA" (fun q h => fetchYahooQuote_symbol h) (by decide)
        have z2 := writesTo_opsOf_ne now (fetchYahooQuote "EURUSD" (y "EURUSD=X"))
          "EURUSD" "NVDA" (fun q h => fetchYahooQuote_symbol h) (by decide)
        have z3 := writesTo_opsOf_ne now (fetchYahooQuote "GBPUSD" (y "GBPUSD=X"))
          "GBPUSD" "NVDA" (fun q h => fetchYahooQuote_symbol h) (by decide)
        have z4 := writesTo_opsOf_ne now (fetchFinnhubQuote "AAPL" apiKey (f "AAPL"))
          "AAPL" "NVDA" (fun q h => fetchFinnhubQuote_symbol h) (by decide)
        have z5 := writesTo_opsOf_ne now (fetchFinnhubQuote "TSLA" apiKey (f "TSLA"))
          "TSLA" "NVDA" (fun q h => fetchFinnhubQuote_symbol h) (by decide)
        have z6 : writesTo (opsOf now (fetchFinnhubQuote "NVDA" apiKey (f "NVDA")))
            "NVDA" = 0 := by rw [hfail, fetchFinnhubQuote_none]; rfl
        omega
      exact rowAfter_no_write _ row
        (fun op hop => by rw [hrow]; exact forall_fst_ne_of_writesTo_zero hz op hop)
    case _ =>
      have hf1 : fetchFinnhubQuote "NVDA" apiKey (f "NVDA") = Option.none := by
        rw [hfail, fetchFinnhubQuote_none]
      rw [GET_eq_chunks apiKey y f now, GET_eq_chunks apiKey y f₂ now, hf1,
        hagree "AAPL" (by decide), hagree "TSLA" (by decide)]
      simp only [List.filter_append]
      rw [filter_opsOf_self now (fetchFinnhubQuote "NVDA" apiKey (f₂ "NVDA")) "NVDA"
        (fun q hq => fetchFinnhubQuote_symbol hq)]
      rfl

/-- C5 witness: with the Yahoo feed failing for gold, the XAUUSD row is
left unchanged by the run, and the writes for the other instruments
equal those of a run whose gold feed succeeded. -/
theorem update_prices_failure_isolation_witness :
    rowAfter sampleRow (GET false (fun _ => Option.none) fRespNone 5) = sampleRow ∧
    (GET false (fun _ => Option.none) fRespNone 5).filter
        (fun op => !(op.1 == "XAUUSD")) =
      (GET false yRespSample fRespNone 5).filter (fun op => !(op.1 == "XAUUSD")) :=
  (update_prices_failure_isolation false (fun _ => Option.none) yRespSample
      fRespNone fRespNone 5 "XAUUSD" "GC=F" sampleRow).1
    (by decide) rfl (fun c₂ hc => by simp [yRespSample, hc]) rfl

/-! ## C3 -/

/-- C3: every signal the deriver emits with direction LONG satisfies
`stopLoss = entry - 2·ATR14`, `takeProfit1 = entry + 1.5·ATR14` and
`takeProfit2 = entry + 3·ATR14` with `entry` the current price, and
every SHORT signal satisfies the mirrored equations. -/
theorem deriveMoneyManagement_levels (price : ℚ) (oatr : Option ℚ)
    (bias : Direction) :
    ((deriveMoneyManagement price oatr bias).direction = Direction.long →
      ∃ atr, oatr = some atr ∧ 0 < atr ∧
        (deriveMoneyManagement price oatr bias).entryPrice = some price ∧
        (deriveMoneyManagement price oatr bias).stopLoss = some (price - 2 * atr) ∧
        (deriveMoneyManagement price oatr bias).takeProfit1 =
          some (price + 3 / 2 * atr) ∧
        (deriveMoneyManagement price oatr bias).takeProfit2 =
          some (price + 3 * atr)) ∧
    ((deriveMoneyManagement price oatr bias).direction = Direction.short →
      ∃ atr, oatr = some atr ∧ 0 < atr ∧
        (deriveMoneyManagement price oatr bias).entryPrice = some price ∧
        (deriveMoneyManagement price oatr bias).stopLoss = some (price + 2 * atr) ∧
        (deriveMoneyManagement price oatr bias).takeProfit1 =
          some (price - 3 / 2 * atr) ∧
        (deriveMoneyManagement price oatr bias).takeProfit2 =
          some (price - 3 * atr)) := by
  cases oatr with
  | none => simp [deriveMoneyManagement, noSignal]
  | some atr =>
      by_cases hle : atr ≤ 0
      · simp [deriveMoneyManagement, noSignal, hle]
      · have hpos : 0 < atr := lt_of_not_le hle
        cases bias with
        | none => simp [deriveMoneyManagement, noSignal, hle]
        | long =>
            constructor
            · intro _
              exact ⟨atr, rfl, hpos, by simp [deriveMoneyManagement, hle],
                by simp [deriveMoneyManagement, hle],
                by simp [deriveMoneyManagement, hle],
                by simp [deriveMoneyManagement, hle]⟩
            · intro hdir
              simp [deriveMoneyManagement, hle] at hdir
        | short =>
            constructor
            · intro hdir
              simp [deriveMoneyManagement, hle] at hdir
            · intro _
              exact ⟨atr, rfl, hpos, by simp [deriveMoneyManagement, hle],
                by simp [deriveMoneyManagement, hle],
                by simp [deriveMoneyManagement, hle],
                by simp [deriveMoneyManagement, hle]⟩

/-- C3 witness: a LONG signal at price 100 with ATR14 = 2 gets stop-loss
96, take-profit 103 and 106, entry 100. -/
theorem deriveMoneyManagement_levels_witness :
    (deriveMoneyManagement 100 (some 2) Direction.long).entryPrice = some 100 ∧
    (deriveMoneyManagement 100 (some 2) Direction.long).stopLoss = some 96 ∧
    (deriveMoneyManagement 100 (some 2) Direction.long).takeProfit1 = some 103 ∧
    (deriveMoneyManagement 100 (some 2) Direction.long).takeProfit2 = some 106 := by
  obtain ⟨atr, ha, hpos, h1, h2, h3, h4⟩ :=
    (deriveMoneyManagement_levels 100 (some 2) Direction.long).1
      (by norm_num [deriveMoneyManagement])
  injection ha with ha
  subst ha
  refine ⟨h1, ?_, ?_, ?_⟩
  · rw [h2]; norm_num
  · rw [h3]; norm_num
  · rw [h4]; norm_num

/-! ## C4 -/

/-- C4: a null or zero ATR14 forces the all-null no-signal output with
direction NONE, and whenever the deriver does emit a signal its entry
never equals its stop-loss. -/
theorem deriveMoneyManagement_null_atr (price : ℚ) (oatr : Option ℚ)
    (bias : Direction) :
    ((oatr = Option.none ∨ oatr = some 0) →
      deriveMoneyManagement price oatr bias = noSignal) ∧
    ((deriveMoneyManagement price oatr bias).direction ≠ Direction.none →
      (deriveMoneyManagement price oatr bias).entryPrice ≠
        (deriveMoneyManagement price oatr bias).stopLoss) := by
  constructor
  · rintro (rfl | rfl)
    · rfl
    · simp [deriveMoneyManagement]
  · intro hdir
    cases oatr with
    | none => exact absurd rfl hdir
    | some atr =>
        by_cases hle : atr ≤ 0
        · refine absurd ?_ hdir
          simp [deriveMoneyManagement, hle, noSignal]
        · have hpos : 0 < atr := lt_of_not_le hle
          cases bias with
          | none =>
              refine absurd ?_ hdir
              simp [deriveMoneyManagement, hle, noSignal]
          | long =>
              simp only [deriveMoneyManagement, if_neg hle]
              intro h
              simp only [Option.some.injEq] at h
              linarith
          | short =>
              simp only [deriveMoneyManagement, if_neg hle]
              intro h
              simp only [Option.some.injEq] at h
              linarith

/-- C4 witness: null ATR and zero ATR both yield the no-signal output,
and the concrete LONG signal at ATR 2 has entry distinct from
stop-loss. -/
theorem deriveMoneyManagement_null_atr_witness :
    deriveMoneyManagement 100 Option.none Direction.long = noSignal ∧
    deriveMoneyManagement 100 (some 0) Direction.long = noSignal ∧
    (deriveMoneyManagement 100 (some 2) Direction.long).entryPrice ≠
      (deriveMoneyManagement 100 (some 2) Direction.long).stopLoss := by
  refine
    ⟨(deriveMoneyManagement_null_atr 100 Option.none Direction.long).1 (Or.inl rfl),
     (deriveMoneyManagement_null_atr 100 (some 0) Direction.long).1 (Or.inr rfl),
     (deriveMoneyManagement_null_atr 100 (some 2) Direction.long).2 ?_⟩
  norm_num [deriveMoneyManagement]
  decide

/-! ## C8 -/

/-- C8: the Hybrid Verdict Scorer is deterministic and stateless — it is
a function of the two snapshots alone, so two runs on identical
IndicatorSnapshot and SentimentSnapshot inputs produce identical
hybridScore, verdict and confidenceLevel outputs. -/
theorem hybridScorer_deterministic (i₁ i₂ : IndicatorSnapshot)
    (s₁ s₂ : SentimentSnapshot) (hi : i₁ = i₂) (hs : s₁ = s₂) :
    hybridScorer i₁ s₁ = hybridScorer i₂ s₂ ∧
    (hybridScorer i₁ s₁).hybridScore = (hybridScorer i₂ s₂).hybridScore ∧
    (hybridScorer i₁ s₁).verdict = (hybridScorer i₂ s₂).verdict ∧
    (hybridScorer i₁ s₁).confidenceLevel = (hybridScorer i₂ s₂).confidenceLevel := by
  subst hi; subst hs
  exact ⟨rfl, rfl, rfl, rfl⟩

/-- C8 witness: two runs on one concrete pair of snapshots. -/
theorem hybridScorer_deterministic_witness :
    hybridScorer
        { rsi14 := some 28, smaSignal := RsiZone.oversold, sma20 := some 99,
          sma50 := some 98, atr14 := some 2, macdLine := some 1,
          macdSignalLine := some (1 / 2), macdHistogram := some (1 / 2),
          macdTrend := MacdTrend.bullish }
        { score := 0, label := SentimentLabel.neutral, newsCount := 0 } =
      hybridScorer
        { rsi14 := some 28, smaSignal := RsiZone.oversold, sma20 := some 99,
          sma50 := some 98, atr14 := some 2, macdLine := some 1,
          macdSignalLine := some (1 / 2), macdHistogram := some (1 / 2),
          macdTrend := MacdTrend.bullish }
        { score := 0, label := SentimentLabel.neutral, newsCount := 0 } :=
  (hybridScorer_deterministic _ _ _ _ rfl rfl).1

/-! ## C10 -/

/-- C10: the stock detail page passes `isPremium = true` to `SignalCard`
for every visitor, so the locked rendering is unreachable from that
page, and whenever the direction is LONG or SHORT the premium view with
the stop-loss and take-profit levels is shown. -/
theorem stock_detail_signal_card_unlocked (signal : SignalDetail) :
    (stockDetailSignalCard signal).isLocked = false ∧
    ((signal.signal_direction = some "LONG" ∨
        signal.signal_direction = some "SHORT") →
      stockDetailSignalCard signal =
        SignalCardView.premiumLevels signal.signal_direction signal.entry_price
          signal.stop_loss signal.take_profit_1 signal.take_profit_2) := by
  constructor
  · by_cases hL : signal.signal_direction = some "LONG"
    · simp [stockDetailSignalCard, SignalCard, hL, SignalCardView.isLocked]
    · by_cases hS : signal.signal_direction = some "SHORT"
      · simp [stockDetailSignalCard, SignalCard, hL, hS, SignalCardView.isLocked]
      · simp [stockDetailSignalCard, SignalCard, hL, hS, SignalCardView.isLocked]
  · rintro (h | h) <;> simp [stockDetailSignalCard, SignalCard, h]

/-- C10 witness: a concrete LONG signal rendered by the stock detail
page shows the premium view with its stop-loss and take-profits. -/
theorem stock_detail_signal_card_unlocked_witness :
    stockDetailSignalCard
        { symbol := "XAUUSD", signal_direction := some "LONG",
          entry_price := some 100, stop_loss := some 96,
          take_profit_1 := some 103, take_profit_2 := some 106,
          risk_reward_ratio := some (3 / 2), atr_14 := some 2 } =
      SignalCardView.premiumLevels (some "LONG") (some 100) (some 96)
        (some 103) (some 106) :=
  (stock_detail_signal_card_unlocked _).2 (Or.inl rfl)

end StockLens
